import Mathlib

/-!
Verification of the SSE streaming service (`backend/app/streaming.py`,
`backend/app/main.py`, `backend/app/models.py`).

Each stream generator is embedded as a pure function from its parameters and a
disconnect oracle `disc : Nat → Bool` (the result of the k-th
`request.is_disconnected()` poll) to the list of events it yields.  Wall-clock
reads (`datetime.now().isoformat()`, `datetime.now()`, `int(time.time())`) are
passed in as oracle parameters.  Python's `str.split()` (split on runs of
Unicode whitespace, discarding empties) is embedded as `pySplit`.
-/

namespace SSE

/-- Characters for which Python's `str.isspace()` is true; `str.split()` with
no separator splits on runs of exactly these characters. -/
def pyWhitespace (c : Char) : Bool :=
  c = ' ' || c = '\t' || c = '\n' || c = '\x0d' || c = '\x0b' || c = '\x0c' ||
  c = '\x1c' || c = '\x1d' || c = '\x1e' || c = '\x1f' || c = '\x85' ||
  c = '\xa0' || c = '\u1680' ||
  ('\u2000' ≤ c && c ≤ '\u200a') ||
  c = '\u2028' || c = '\u2029' || c = '\u202f' || c = '\u205f' || c = '\u3000'

/-- Worker for `pySplit`: `acc` holds the current in-progress word, reversed. -/
def pySplitAux : List Char → List Char → List (List Char)
  | [], [] => []
  | [], acc => [acc.reverse]
  | c :: cs, acc =>
    if pyWhitespace c then
      match acc with
      | [] => pySplitAux cs []
      | _ => acc.reverse :: pySplitAux cs []
    else pySplitAux cs (c :: acc)

/-- Python `s.split()` with no separator: whitespace-delimited words, no
empty tokens. -/
def pySplit (s : String) : List String :=
  (pySplitAux s.data []).map fun l => ⟨l⟩

example : pySplit "Processing your message: \x27hello world\x27" =
    ["Processing", "your", "message:", "\x27hello", "world\x27"] := by decide

example : pySplit "  a \n b  " = ["a", "b"] := by decide
example : pySplit "" = [] := by decide

/-- `models.py` `StreamMessage` (the `timestamp: datetime` field is an
abstract clock value). -/
structure StreamMessage where
  id : String
  event : String
  data : String
  timestamp : Nat
  deriving Repr, DecidableEq

/-- `models.py` `ProgressUpdate`. -/
structure ProgressUpdate where
  task_id : String
  progress : Nat
  status : String
  message : Option String := none
  deriving Repr, DecidableEq

/-- `models.py` `LLMStreamChunk`; `metadata` in the source is the dict
`{"progress": ...}`, embedded as its single entry. -/
structure LLMStreamChunk where
  content : String
  chunk_id : Nat
  is_final : Bool := false
  metadata_progress : Nat
  deriving Repr, DecidableEq

/-- `models.py` `ChatMessage`; `user_id: Optional[str] = "anonymous"`. -/
structure ChatMessage where
  message : String
  user_id : Option String := some "anonymous"
  deriving Repr, DecidableEq

/-- The `data` field of a yielded SSE event dict: the structured payload that
the source serialises with `model_dump_json()` / `json.dumps`. -/
inductive Payload where
  | msg (m : StreamMessage)
  | complete (message : String)
  | chunk (c : LLMStreamChunk)
  | llmComplete (message : String)
  | progress (p : ProgressUpdate)
  deriving Repr, DecidableEq

/-- One yielded event dict `{"event": ..., "id": ..., "data": ...}`. -/
structure SSEEvent where
  event : String
  id : String
  data : Payload
  deriving Repr, DecidableEq

/-! ## Counter stream (`StreamingService.stream_events`) -/

/-- Loop body of `stream_events`: `counter` is the number of messages emitted
so far; each iteration first polls `disc counter`, then increments the counter
and yields message number `counter + 1`; after the 10th message the
"complete" event is yielded and the loop breaks.  `iso j` and `ts j` are the
two `datetime.now()` reads of iteration `j`.  `r` is termination fuel,
`10 - counter` at every call, so the `0` case is never reached from
`stream_events`. -/
def streamEventsAux (disc : Nat → Bool) (iso : Nat → String) (ts : Nat → Nat) :
    Nat → Nat → List SSEEvent
  | _, 0 => []
  | counter, r + 1 =>
    if disc counter then []
    else
      let c := counter + 1
      let ev : SSEEvent :=
        { event := "message", id := toString c,
          data := .msg { id := toString c, event := "message",
                         data := "Server message #" ++ toString c ++ " at " ++ iso counter,
                         timestamp := ts counter } }
      if 10 ≤ c then
        [ev, { event := "complete", id := toString (c + 1),
               data := .complete "Stream completed" }]
      else
        ev :: streamEventsAux disc iso ts c r

/-- `StreamingService.stream_events`, as the list of events yielded for a
given disconnect oracle and clock oracles. -/
def stream_events (disc : Nat → Bool) (iso : Nat → String) (ts : Nat → Nat) :
    List SSEEvent :=
  streamEventsAux disc iso ts 0 10

/-! ## Text-generation stream (`StreamingService.simulate_llm_streaming`) -/

/-- The part of the canned `full_response` after the interpolated first line,
byte for byte (including trailing spaces inside the triple-quoted string). -/
def llmFixedRest : String :=
  "This streaming response demonstrates how you can implement real-time text generation \nsimilar to ChatGPT or other language models. Each chunk of text is sent as it becomes \navailable, providing a better user experience than waiting for the complete response.\n\nThe streaming approach is particularly useful for:\n1. Long-form content generation\n2. Real-time chat applications  \n3. Progressive content delivery\n4. Better perceived performance\n\nThis completes the simulated streaming response."

/-- The f-string `full_response` of `simulate_llm_streaming`: the prompt is
interpolated, in double quotes, into the first line only. -/
def full_response (prompt : String) : String :=
  "This is a simulated LLM response to your prompt: \"" ++ prompt ++ "\".\n\n"
    ++ llmFixedRest

/-- Python `round(num / den)` on the exact rational: round half to even.  The
source computes `round((i + 1) / len(words) * 100)` in binary floating point;
for the word counts arising here the float result agrees with exact rational
rounding (checked by enumeration), and no claim depends on this field. -/
def pyRoundRat (num den : Nat) : Nat :=
  let q := num / den
  let r := num % den
  if 2 * r < den then q
  else if den < 2 * r then q + 1
  else if q % 2 = 0 then q else q + 1

/-- The "llm_complete" terminal event, yielded with `id = str(chunk_id + 1)`
where `cid` is the final value of `chunk_id`. -/
def llmCompleteEvent (cid : Nat) : SSEEvent :=
  { event := "llm_complete", id := toString (cid + 1),
    data := .llmComplete "LLM response completed" }

/-- Loop of `simulate_llm_streaming`: `ws` are the remaining words, `i` the
`enumerate` index, `cid` the current `chunk_id`, `total = len(words)`.  Each
iteration polls `disc i` first; a detected disconnect breaks out of the loop,
after which the completion event is yielded unconditionally (its yield sits
outside the `for` loop in the source). -/
def llmAux (disc : Nat → Bool) (total : Nat) :
    List String → Nat → Nat → List SSEEvent
  | [], _, cid => [llmCompleteEvent cid]
  | w :: ws, i, cid =>
    if disc i then [llmCompleteEvent cid]
    else
      let c := cid + 1
      { event := "llm_chunk", id := toString c,
        data := .chunk { content := w ++ " ", chunk_id := c,
                         is_final := i == total - 1,
                         metadata_progress := pyRoundRat ((i + 1) * 100) total } }
        :: llmAux disc total ws (i + 1) c

/-- `StreamingService.simulate_llm_streaming`, as the list of events yielded
for a given prompt and disconnect oracle. -/
def simulate_llm_streaming (prompt : String) (disc : Nat → Bool) :
    List SSEEvent :=
  let words := pySplit (full_response prompt)
  llmAux disc words.length words 0 0

/-! ## Progress stream (`StreamingService.simulate_progress_task`) -/

/-- The constant `total_steps` of `simulate_progress_task`. -/
def total_steps : Nat := 20

/-- The "progress" event of step `step`; `t0` is the `int(time.time())` read
used for the task id.  `progress` in the source is
`int((step / total_steps) * 100)` computed in floating point; over the whole
range `step = 0..20` the float computation yields exactly
`step * 100 / total_steps` in integer (floor) arithmetic (checked by
enumeration), which is how it is embedded. -/
def progressEvent (task_name : String) (t0 : Nat) (step : Nat) : SSEEvent :=
  { event := "progress", id := toString step,
    data := .progress
      { task_id := "task_" ++ toString t0,
        progress := step * 100 / total_steps,
        status := if step < total_steps then "in_progress" else "completed",
        message := some ("Processing " ++ task_name ++ " - Step "
                          ++ toString step ++ "/" ++ toString total_steps) } }

/-- Loop of `simulate_progress_task`: `for step in range(total_steps + 1)`,
polling `disc step` at each iteration start; nothing is yielded after the
loop.  `r` is termination fuel, `total_steps + 1 - step` at every call. -/
def progressAux (task_name : String) (t0 : Nat) (disc : Nat → Bool) :
    Nat → Nat → List SSEEvent
  | _, 0 => []
  | step, r + 1 =>
    if disc step then []
    else progressEvent task_name t0 step :: progressAux task_name t0 disc (step + 1) r

/-- `StreamingService.simulate_progress_task`, as the list of events yielded
for a given task name, start time and disconnect oracle. -/
def simulate_progress_task (task_name : String) (t0 : Nat) (disc : Nat → Bool) :
    List SSEEvent :=
  progressAux task_name t0 disc 0 (total_steps + 1)

/-! ## POST stream (`generate_response` in `main.py`) -/

/-- `str(message.user_id)` as interpolated by the chunk f-string (`None`
renders as the string "None"). -/
def uidStr : Option String → String
  | some s => s
  | none => "None"

/-- One chunk line of the POST generator.  The source builds it by string
interpolation into literal braces (`\x7b` and `\x7d` are `{` and `}`). -/
def chunkLine (i : Nat) (word uid : String) : String :=
  "data: \x7b\x27chunk\x27: \x27" ++ word ++ " \x27, \x27index\x27: " ++ toString i ++
    ", \x27user_id\x27: \x27" ++ uid ++ "\x27\x7d\n\n"

/-- The completion line yielded after the POST generator's loop. -/
def completionLine : String :=
  "data: \x7b\x27complete\x27: true, \x27message\x27: \x27Processing completed\x27\x7d\n\n"

/-- The error line produced by the POST generator's `except` clause for an
exception rendered as `e`. -/
def errorLine (e : String) : String :=
  "data: \x7b\x27error\x27: \x27Processing failed: " ++ e ++ "\x27\x7d\n\n"

/-- Loop of `generate_response`.  `fault j = some e` models an exception with
text `e` raised at the j-th await point of the run: point `2*i` is the
`request.is_disconnected()` call of iteration `i`, point `2*i + 1` the
`asyncio.sleep` after the i-th yield.  The `try/except Exception` wrapping
the whole body turns the first raised exception into a single error line,
ending the stream.  A disconnect `break` falls through to the completion
yield, which sits outside the `for` loop in the source. -/
def postAux (disc : Nat → Bool) (fault : Nat → Option String) (uid : String) :
    List String → Nat → List String
  | [], _ => [completionLine]
  | w :: ws, i =>
    match fault (2 * i) with
    | some e => [errorLine e]
    | none =>
      if disc i then [completionLine]
      else
        chunkLine i w uid ::
          match fault (2 * i + 1) with
          | some e => [errorLine e]
          | none => postAux disc fault uid ws (i + 1)

/-- `generate_response` of the POST endpoint `post_stream`, as the list of
yielded lines (each `.encode()`d in the source) for a given request body,
disconnect oracle and fault oracle. -/
def generate_response (msg : ChatMessage) (disc : Nat → Bool)
    (fault : Nat → Option String) : List String :=
  let response_text := "Processing your message: \x27" ++ msg.message ++ "\x27"
  postAux disc fault (uidStr msg.user_id) (pySplit response_text) 0

/-! ## Word-splitting lemmas

`pySplit` distributes over concatenation at a whitespace character; this
pins down how the interpolated prompt contributes to the word count of
`full_response`. -/

theorem pySplitAux_cons (c : Char) (cs acc : List Char) :
    pySplitAux (c :: cs) acc =
      if pyWhitespace c then
        (match acc with
          | [] => pySplitAux cs []
          | _ => acc.reverse :: pySplitAux cs [])
      else pySplitAux cs (c :: acc) := rfl

theorem pySplitAux_ws_head {w : Char} (hw : pyWhitespace w = true)
    (cs : List Char) : pySplitAux (w :: cs) [] = pySplitAux cs [] := by
  rw [pySplitAux_cons, hw]
  rfl

theorem pySplitAux_append_ws {w : Char} (hw : pyWhitespace w = true) :
    ∀ (a b acc : List Char),
      pySplitAux (a ++ w :: b) acc = pySplitAux (a ++ [w]) acc ++ pySplitAux b []
  | [], b, acc => by
    cases acc with
    | nil => simp only [List.nil_append, pySplitAux_cons, hw, if_true]; rfl
    | cons x xs => simp only [List.nil_append, pySplitAux_cons, hw, if_true]; rfl
  | c :: a, b, acc => by
    simp only [List.cons_append, pySplitAux_cons]
    by_cases hc : pyWhitespace c
    · rw [hc]
      cases acc with
      | nil => simpa using pySplitAux_append_ws hw a b []
      | cons x xs => simpa using pySplitAux_append_ws hw a b []
    · rw [Bool.not_eq_true] at hc
      rw [hc]
      simpa using pySplitAux_append_ws hw a b (c :: acc)

theorem pySplitAux_append_ws_last {w : Char} (hw : pyWhitespace w = true) :
    ∀ (a acc : List Char), pySplitAux (a ++ [w]) acc = pySplitAux a acc
  | [], acc => by
    cases acc with
    | nil => simp only [List.nil_append, pySplitAux_cons, hw, if_true]
    | cons x xs => simp only [List.nil_append, pySplitAux_cons, hw, if_true]; rfl
  | c :: a, acc => by
    simp only [List.cons_append, pySplitAux_cons]
    by_cases hc : pyWhitespace c
    · rw [hc]
      cases acc with
      | nil => simpa using pySplitAux_append_ws_last hw a []
      | cons x xs => simpa using pySplitAux_append_ws_last hw a []
    · rw [Bool.not_eq_true] at hc
      rw [hc]
      simpa using pySplitAux_append_ws_last hw a (c :: acc)

/-- The quoted form in which the prompt lands inside `full_response`'s first
line: `"` before, `".` after. -/
def quotedPrompt (p : String) : String := "\"" ++ p ++ "\"."

/-- The canned response always has 77 fixed words (9 on the first line before
the quoted prompt, 68 after it); the quoted prompt contributes its own
whitespace-delimited words. -/
theorem full_response_wordCount (p : String) :
    (pySplit (full_response p)).length = 77 + (pySplit (quotedPrompt p)).length := by
  have hdata : (full_response p).data =
      ("This is a simulated LLM response to your prompt:" : String).data ++
        ' ' :: ((quotedPrompt p).data ++ '\n' :: ('\n' :: llmFixedRest.data)) := by
    simp only [full_response, quotedPrompt, String.data_append]
    have h1 : ("This is a simulated LLM response to your prompt: \"" : String).data =
        ("This is a simulated LLM response to your prompt:" : String).data ++
          [' ', '"'] := by decide
    have h2 : ("\".\n\n" : String).data = ['"', '.', '\n', '\n'] := by decide
    have h3 : ("\"" : String).data = ['"'] := by decide
    have h4 : ("\"." : String).data = ['"', '.'] := by decide
    simp [h1, h2, h3, h4]
  have hws : pyWhitespace ' ' = true := by decide
  have hwn : pyWhitespace '\n' = true := by decide
  have hsplit : pySplitAux (full_response p).data [] =
      pySplitAux (("This is a simulated LLM response to your prompt:" : String).data
        ++ [' ']) [] ++
      (pySplitAux ((quotedPrompt p).data ++ ['\n']) [] ++
        pySplitAux ('\n' :: llmFixedRest.data) []) := by
    rw [hdata, pySplitAux_append_ws hws, pySplitAux_append_ws hwn]
  have hpre : (pySplitAux
      (("This is a simulated LLM response to your prompt:" : String).data ++ [' '])
      []).length = 9 := by decide
  have hrest : (pySplitAux llmFixedRest.data []).length = 68 := by decide
  simp only [pySplit, List.length_map]
  rw [hsplit, pySplitAux_append_ws_last hwn, pySplitAux_ws_head hwn,
    List.length_append, List.length_append, hpre, hrest]
  omega

/-! ## Counter stream characterization -/

/-- The "message" event emitted by iteration `j` (0-based) of the counter
loop: the counter shown is `j + 1`. -/
def counterMsgEvent (iso : Nat → String) (ts : Nat → Nat) (j : Nat) : SSEEvent :=
  { event := "message", id := toString (j + 1),
    data := .msg { id := toString (j + 1), event := "message",
                   data := "Server message #" ++ toString (j + 1) ++ " at " ++ iso j,
                   timestamp := ts j } }

/-- The terminal "complete" event of the counter stream as emitted after the
10th message (`id = str(counter + 1)` with `counter = 10`). -/
def counterCompleteEvent : SSEEvent :=
  { event := "complete", id := "11", data := .complete "Stream completed" }

theorem streamEventsAux_succ (disc : Nat → Bool) (iso : Nat → String)
    (ts : Nat → Nat) (counter r : Nat) :
    streamEventsAux disc iso ts counter (r + 1) =
      if disc counter then []
      else if 10 ≤ counter + 1 then
        [counterMsgEvent iso ts counter,
         { event := "complete", id := toString (counter + 1 + 1),
           data := .complete "Stream completed" }]
      else counterMsgEvent iso ts counter :: streamEventsAux disc iso ts (counter + 1) r :=
  rfl

/-- If no disconnect is observed at polls `counter ≤ j < 10`, the rest of the
counter loop emits one message per remaining iteration and then the
"complete" event. -/
theorem streamEventsAux_all_false (disc : Nat → Bool) (iso : Nat → String)
    (ts : Nat → Nat) :
    ∀ (r counter : Nat), counter + (r + 1) = 10 →
      (∀ j, counter ≤ j → j < 10 → disc j = false) →
      streamEventsAux disc iso ts counter (r + 1)
        = (List.range' counter (r + 1)).map (counterMsgEvent iso ts)
          ++ [counterCompleteEvent]
  | 0, counter, hc, h => by
    have hc9 : counter = 9 := by omega
    subst hc9
    rw [streamEventsAux_succ, h 9 (by omega) (by omega)]
    simp only [Bool.false_eq_true, if_false, if_pos (by omega : 10 ≤ 9 + 1)]
    rw [show toString (9 + 1 + 1) = "11" from by decide]
    simp [counterCompleteEvent]
  | r + 1, counter, hc, h => by
    rw [streamEventsAux_succ, h counter (by omega) (by omega)]
    have hlt : ¬ 10 ≤ counter + 1 := by omega
    rw [if_neg hlt, List.range'_succ]
    have ih := streamEventsAux_all_false disc iso ts r (counter + 1) (by omega)
      (fun j h1 h2 => h j (by omega) h2)
    simp [ih]

/-- If the first disconnect is detected at poll `k < 10`, the counter loop
emits exactly the first `k - counter` remaining messages and nothing else:
no "complete" event. -/
theorem streamEventsAux_first_true (disc : Nat → Bool) (iso : Nat → String)
    (ts : Nat → Nat) (k : Nat) (hk : disc k = true)
    (h0 : ∀ j, j < k → disc j = false) :
    ∀ (r counter : Nat), counter + r = 10 → counter ≤ k → k < 10 →
      streamEventsAux disc iso ts counter r
        = (List.range' counter (k - counter)).map (counterMsgEvent iso ts)
  | 0, counter, hc, hck, hk10 => by omega
  | r + 1, counter, hc, hck, hk10 => by
    rcases Nat.eq_or_lt_of_le hck with heq | hlt
    · subst heq
      rw [streamEventsAux_succ, if_pos hk]
      simp
    · rw [streamEventsAux_succ, if_neg (by simp [h0 counter hlt])]
      have h10 : ¬ 10 ≤ counter + 1 := by omega
      rw [if_neg h10]
      have ih := streamEventsAux_first_true disc iso ts k hk h0 r (counter + 1)
        (by omega) (by omega) hk10
      rw [ih]
      obtain ⟨m, hm⟩ : ∃ m, k - counter = m + 1 := ⟨k - counter - 1, by omega⟩
      rw [hm, List.range'_succ]
      have : m = k - (counter + 1) := by omega
      simp [this]

/-! ## Progress stream characterization -/

theorem progressAux_succ (task_name : String) (t0 : Nat) (disc : Nat → Bool)
    (step r : Nat) :
    progressAux task_name t0 disc step (r + 1) =
      if disc step then []
      else progressEvent task_name t0 step :: progressAux task_name t0 disc (step + 1) r :=
  rfl

/-- If no disconnect is observed at the remaining polls, the progress loop
emits one "progress" event per remaining step. -/
theorem progressAux_all_false (task_name : String) (t0 : Nat) (disc : Nat → Bool) :
    ∀ (r step : Nat), step + r = total_steps + 1 →
      (∀ j, step ≤ j → j ≤ total_steps → disc j = false) →
      progressAux task_name t0 disc step r
        = (List.range' step r).map (progressEvent task_name t0)
  | 0, step, _, _ => rfl
  | r + 1, step, hc, h => by
    have ht : total_steps = 20 := rfl
    rw [progressAux_succ, if_neg (by simp [h step (by omega) (by omega)])]
    have ih := progressAux_all_false task_name t0 disc r (step + 1) (by omega)
      (fun j h1 h2 => h j (by omega) h2)
    rw [List.range'_succ]
    simp [ih]

/-- If the first disconnect is detected at poll `k ≤ 20`, the progress loop
emits exactly the events of the steps before `k` and nothing else. -/
theorem progressAux_first_true (task_name : String) (t0 : Nat) (disc : Nat → Bool)
    (k : Nat) (hk : disc k = true) (h0 : ∀ j, j < k → disc j = false) :
    ∀ (r step : Nat), step + r = total_steps + 1 → step ≤ k → k ≤ total_steps →
      progressAux task_name t0 disc step r
        = (List.range' step (k - step)).map (progressEvent task_name t0)
  | 0, step, hc, hck, hk20 => by simp only [total_steps] at hc hk20; omega
  | r + 1, step, hc, hck, hk20 => by
    rcases Nat.eq_or_lt_of_le hck with heq | hlt
    · subst heq
      rw [progressAux_succ, if_pos hk]
      simp
    · rw [progressAux_succ, if_neg (by simp [h0 step hlt])]
      have ih := progressAux_first_true task_name t0 disc k hk h0 r (step + 1)
        (by omega) (by omega) hk20
      rw [ih]
      obtain ⟨m, hm⟩ : ∃ m, k - step = m + 1 := ⟨k - step - 1, by omega⟩
      rw [hm, List.range'_succ]
      have : m = k - (step + 1) := by omega
      simp [this]

/-! ## Text-generation stream characterization -/

/-- The "llm_chunk" event emitted for word `w` at `enumerate` index `i`
(reachable runs always have `chunk_id = i + 1`). -/
def llmChunkEvent (total i : Nat) (w : String) : SSEEvent :=
  { event := "llm_chunk", id := toString (i + 1),
    data := .chunk { content := w ++ " ", chunk_id := i + 1,
                     is_final := i == total - 1,
                     metadata_progress := pyRoundRat ((i + 1) * 100) total } }

/-- The chunk events for the words `ws` with `enumerate` index starting
at `i`. -/
def llmChunksFrom (total : Nat) : List String → Nat → List SSEEvent
  | [], _ => []
  | w :: ws, i => llmChunkEvent total i w :: llmChunksFrom total ws (i + 1)

theorem llmAux_nil (disc : Nat → Bool) (total i cid : Nat) :
    llmAux disc total [] i cid = [llmCompleteEvent cid] := rfl

theorem llmAux_cons (disc : Nat → Bool) (total : Nat) (w : String)
    (ws : List String) (i cid : Nat) :
    llmAux disc total (w :: ws) i cid =
      if disc i then [llmCompleteEvent cid]
      else
        { event := "llm_chunk", id := toString (cid + 1),
          data := .chunk { content := w ++ " ", chunk_id := cid + 1,
                           is_final := i == total - 1,
                           metadata_progress := pyRoundRat ((i + 1) * 100) total } }
          :: llmAux disc total ws (i + 1) (cid + 1) :=
  rfl

/-- If no disconnect is observed at the polls of the remaining words, the
generation loop emits one chunk per word and then the completion event, whose
final `chunk_id` counts every word. -/
theorem llmAux_all_false (disc : Nat → Bool) (total : Nat) :
    ∀ (ws : List String) (i : Nat),
      (∀ j, i ≤ j → j < i + ws.length → disc j = false) →
      llmAux disc total ws i i
        = llmChunksFrom total ws i ++ [llmCompleteEvent (i + ws.length)]
  | [], i, _ => by simp [llmAux_nil, llmChunksFrom]
  | w :: ws, i, h => by
    rw [llmAux_cons, if_neg
      (by simp [h i (by omega) (by simp only [List.length_cons]; omega)])]
    have ih := llmAux_all_false disc total ws (i + 1)
      (fun j h1 h2 => h j (by omega) (by simp only [List.length_cons]; omega))
    rw [ih]
    simp only [llmChunksFrom, llmChunkEvent, List.length_cons, List.cons_append]
    have : i + (ws.length + 1) = i + 1 + ws.length := by omega
    rw [this]

/-- If the first disconnect is detected at poll `k`, the generation loop
emits the chunks of the first `k` words and then, because the completion
yield sits outside the loop, still emits "llm_complete" with
`id = str(k + 1)`. -/
theorem llmAux_first_true (disc : Nat → Bool) (total k : Nat)
    (hk : disc k = true) (h0 : ∀ j, j < k → disc j = false) :
    ∀ (ws : List String) (i : Nat), i ≤ k → k < i + ws.length →
      llmAux disc total ws i i
        = llmChunksFrom total (ws.take (k - i)) i ++ [llmCompleteEvent k]
  | [], i, hik, hlt => by simp only [List.length_nil] at hlt; omega
  | w :: ws, i, hik, hlt => by
    rcases Nat.eq_or_lt_of_le hik with heq | hlt2
    · subst heq
      rw [llmAux_cons, if_pos hk]
      simp [llmChunksFrom]
    · rw [llmAux_cons, if_neg (by simp [h0 i hlt2])]
      have ih := llmAux_first_true disc total k hk h0 ws (i + 1)
        (by omega) (by simp only [List.length_cons] at hlt; omega)
      rw [ih]
      obtain ⟨m, hm⟩ : ∃ m, k - i = m + 1 := ⟨k - i - 1, by omega⟩
      rw [hm]
      simp only [List.take_succ_cons, llmChunksFrom, llmChunkEvent, List.cons_append]
      have : m = k - (i + 1) := by omega
      rw [this]

theorem llmAux_ne_nil (disc : Nat → Bool) (total : Nat) :
    ∀ (ws : List String) (i cid : Nat), llmAux disc total ws i cid ≠ []
  | [], _, _ => by simp [llmAux_nil]
  | w :: ws, i, cid => by
    rw [llmAux_cons]
    by_cases hd : disc i <;> simp [hd]

/-- In every run, disconnected or not, the last event is "llm_complete" and
its id is `str(cid + 1)` for the final chunk counter. -/
theorem llmAux_getLast (disc : Nat → Bool) (total : Nat) :
    ∀ (ws : List String) (i cid : Nat),
      (llmAux disc total ws i cid).getLast?
        = some (llmCompleteEvent (cid +
            ((llmAux disc total ws i cid).filter fun e => e.event == "llm_chunk").length))
  | [], i, cid => by simp [llmAux_nil, llmCompleteEvent]
  | w :: ws, i, cid => by
    rw [llmAux_cons]
    by_cases hd : disc i
    · rw [if_pos hd]
      simp [llmCompleteEvent]
    · rw [if_neg hd]
      have ih := llmAux_getLast disc total ws (i + 1) (cid + 1)
      cases hx : llmAux disc total ws (i + 1) (cid + 1) with
      | nil => exact absurd hx (llmAux_ne_nil disc total ws (i + 1) (cid + 1))
      | cons y ys =>
        rw [hx] at ih
        rw [List.getLast?_cons_cons, ih]
        simp only [List.filter_cons]
        norm_num
        simp [Nat.add_assoc, Nat.add_comm]

/-! ## Payload field extractors -/

/-- `chunk_id` of an "llm_chunk" event's payload (0 for other payloads). -/
def chunkIdOf (e : SSEEvent) : Nat :=
  match e.data with
  | .chunk c => c.chunk_id
  | _ => 0

/-- `is_final` of an "llm_chunk" event's payload (false for other payloads). -/
def isFinalOf (e : SSEEvent) : Bool :=
  match e.data with
  | .chunk c => c.is_final
  | _ => false

/-- `progress` of a "progress" event's payload (0 for other payloads). -/
def progOf (e : SSEEvent) : Nat :=
  match e.data with
  | .progress p => p.progress
  | _ => 0

/-- `status` of a "progress" event's payload ("" for other payloads). -/
def statusOf (e : SSEEvent) : String :=
  match e.data with
  | .progress p => p.status
  | _ => ""

theorem llmChunksFrom_length (total : Nat) :
    ∀ (ws : List String) (i : Nat), (llmChunksFrom total ws i).length = ws.length
  | [], _ => rfl
  | w :: ws, i => by
    simp only [llmChunksFrom, List.length_cons, llmChunksFrom_length total ws (i + 1)]

theorem llmChunksFrom_map_event (total : Nat) :
    ∀ (ws : List String) (i : Nat),
      (llmChunksFrom total ws i).map SSEEvent.event
        = List.replicate ws.length "llm_chunk"
  | [], _ => rfl
  | w :: ws, i => by
    simp only [llmChunksFrom, List.map_cons, List.length_cons, List.replicate_succ,
      llmChunksFrom_map_event total ws (i + 1)]
    rfl

theorem llmChunksFrom_map_chunkId (total : Nat) :
    ∀ (ws : List String) (i : Nat),
      (llmChunksFrom total ws i).map chunkIdOf = List.range' (i + 1) ws.length
  | [], _ => rfl
  | w :: ws, i => by
    simp only [llmChunksFrom, List.map_cons, List.length_cons, List.range'_succ,
      llmChunksFrom_map_chunkId total ws (i + 1)]
    rfl

theorem llmChunksFrom_map_isFinal (total : Nat) :
    ∀ (ws : List String) (i : Nat),
      (llmChunksFrom total ws i).map isFinalOf
        = (List.range' i ws.length).map (fun j => j == total - 1)
  | [], _ => rfl
  | w :: ws, i => by
    simp only [llmChunksFrom, List.map_cons, List.length_cons, List.range'_succ,
      llmChunksFrom_map_isFinal total ws (i + 1)]
    rfl

theorem llmChunksFrom_filter (total : Nat) :
    ∀ (ws : List String) (i : Nat),
      ((llmChunksFrom total ws i).filter fun e => e.event == "llm_chunk")
        = llmChunksFrom total ws i
  | [], _ => rfl
  | w :: ws, i => by
    simp only [llmChunksFrom, List.filter_cons, llmChunksFrom_filter total ws (i + 1)]
    rfl

/-- `[j == n - 1 for j in range(n)]` is `n - 1` falses then one true. -/
theorem range'_map_beq_last (n : Nat) (hn : 1 ≤ n) :
    (List.range' 0 n).map (fun j => j == n - 1)
      = List.replicate (n - 1) false ++ [true] := by
  obtain ⟨m, rfl⟩ : ∃ m, n = m + 1 := ⟨n - 1, by omega⟩
  rw [show List.range' 0 (m + 1) = List.range' 0 m ++ [0 + m] from by
    simpa using @List.range'_concat 1 0 m]
  rw [List.map_append]
  simp only [Nat.add_sub_cancel, Nat.zero_add, List.map_cons, List.map_nil]
  congr 1
  · apply List.eq_replicate_iff.2
    refine ⟨by simp, ?_⟩
    intro b hb
    obtain ⟨j, hj, rfl⟩ := List.mem_map.1 hb
    have hjm : j < m := by
      have := List.mem_range'_1.1 hj
      omega
    simp [Nat.ne_of_lt hjm]
  · simp

/-! ## POST stream characterization -/

/-- The chunk lines for words `ws` with `enumerate` index starting at `i`. -/
def postChunksFrom (uid : String) : List String → Nat → List String
  | [], _ => []
  | w :: ws, i => chunkLine i w uid :: postChunksFrom uid ws (i + 1)

theorem postAux_nil (disc : Nat → Bool) (fault : Nat → Option String)
    (uid : String) (i : Nat) : postAux disc fault uid [] i = [completionLine] := rfl

theorem postAux_cons (disc : Nat → Bool) (fault : Nat → Option String)
    (uid w : String) (ws : List String) (i : Nat) :
    postAux disc fault uid (w :: ws) i =
      match fault (2 * i) with
      | some e => [errorLine e]
      | none =>
        if disc i then [completionLine]
        else
          chunkLine i w uid ::
            match fault (2 * i + 1) with
            | some e => [errorLine e]
            | none => postAux disc fault uid ws (i + 1) :=
  rfl

/-- With no disconnect and no exception, the POST loop emits one chunk line
per word and then the completion line. -/
theorem postAux_all_false (disc : Nat → Bool) (fault : Nat → Option String)
    (uid : String) (hf : ∀ j, fault j = none) (hd : ∀ i, disc i = false) :
    ∀ (ws : List String) (i : Nat),
      postAux disc fault uid ws i = postChunksFrom uid ws i ++ [completionLine]
  | [], i => by simp [postAux_nil, postChunksFrom]
  | w :: ws, i => by
    rw [postAux_cons]
    simp only [hf (2 * i), hf (2 * i + 1), hd i, Bool.false_eq_true, if_false]
    rw [postAux_all_false disc fault uid hf hd ws (i + 1)]
    simp [postChunksFrom]

/-- With no exception, a first disconnect detected at poll `k` stops the loop
after `k` chunk lines, after which the completion line is still emitted (its
yield sits outside the `for` loop in the source). -/
theorem postAux_first_true (disc : Nat → Bool) (fault : Nat → Option String)
    (uid : String) (k : Nat) (hf : ∀ j, fault j = none) (hk : disc k = true)
    (h0 : ∀ j, j < k → disc j = false) :
    ∀ (ws : List String) (i : Nat), i ≤ k → k < i + ws.length →
      postAux disc fault uid ws i
        = postChunksFrom uid (ws.take (k - i)) i ++ [completionLine]
  | [], i, hik, hlt => by simp only [List.length_nil] at hlt; omega
  | w :: ws, i, hik, hlt => by
    rw [postAux_cons]
    simp only [hf (2 * i), hf (2 * i + 1)]
    rcases Nat.eq_or_lt_of_le hik with heq | hlt2
    · subst heq
      rw [if_pos hk]
      simp [postChunksFrom]
    · rw [if_neg (by simp [h0 i hlt2])]
      rw [postAux_first_true disc fault uid k hf hk h0 ws (i + 1)
        (by omega) (by simp only [List.length_cons] at hlt; omega)]
      obtain ⟨m, hm⟩ : ∃ m, k - i = m + 1 := ⟨k - i - 1, by omega⟩
      rw [hm]
      simp only [List.take_succ_cons, postChunksFrom, List.cons_append]
      have : m = k - (i + 1) := by omega
      rw [this]

/-- If the run reaches await point `j` and the first exception is raised
there, the output is the chunk lines of the words already processed followed
by exactly one error line, and nothing after it. -/
theorem postAux_fault (disc : Nat → Bool) (fault : Nat → Option String)
    (uid : String) (j : Nat) (e : String) (hj : fault j = some e)
    (h0 : ∀ j', j' < j → fault j' = none)
    (hd : ∀ i, 2 * i < j → disc i = false) :
    ∀ (ws : List String) (i : Nat), 2 * i ≤ j → j < 2 * (i + ws.length) →
      postAux disc fault uid ws i
        = postChunksFrom uid (ws.take ((j + 1) / 2 - i)) i ++ [errorLine e]
  | [], i, hij, hlt => by simp only [List.length_nil] at hlt; omega
  | w :: ws, i, hij, hlt => by
    rw [postAux_cons]
    rcases Nat.eq_or_lt_of_le hij with heq | hlt2
    · rw [← heq] at hj
      rw [hj]
      have : (j + 1) / 2 - i = 0 := by omega
      rw [← heq] at this ⊢
      simp [this, postChunksFrom]
    · rw [h0 (2 * i) hlt2, if_neg (by simp [hd i hlt2])]
      rcases Nat.eq_or_lt_of_le (by omega : 2 * i + 1 ≤ j) with heq2 | hlt3
      · rw [← heq2] at hj
        rw [hj]
        have h1 : (j + 1) / 2 - i = 1 := by omega
        rw [h1]
        simp [postChunksFrom]
      · rw [h0 (2 * i + 1) hlt3]
        rw [postAux_fault disc fault uid j e hj h0 hd ws (i + 1)
          (by omega) (by simp only [List.length_cons] at hlt; omega)]
        obtain ⟨m, hm⟩ : ∃ m, (j + 1) / 2 - i = m + 1 := ⟨(j + 1) / 2 - i - 1, by omega⟩
        rw [hm]
        simp only [List.take_succ_cons, postChunksFrom, List.cons_append]
        have : m = (j + 1) / 2 - (i + 1) := by omega
        rw [this]

/-- Every line in a `postChunksFrom` block is a chunk line for the given
user id. -/
theorem postChunksFrom_mem (uid : String) :
    ∀ (ws : List String) (i : Nat) (s : String), s ∈ postChunksFrom uid ws i →
      ∃ a b, s = chunkLine a b uid
  | [], _, s, hs => by simp [postChunksFrom] at hs
  | w :: ws, i, s, hs => by
    rcases (List.mem_cons).1 hs with h | h
    · exact ⟨i, w, h⟩
    · exact postChunksFrom_mem uid ws (i + 1) s h

/-! ## Service state (`StreamingService`)

`StreamingService.__init__` sets the single field `active_connections`; the
stateful embeddings below thread that state through every loop iteration so
that reads or writes, had the source performed any, would be visible. -/

/-- The single field of `StreamingService`: `self.active_connections = set()`
(the source never constrains its element type). -/
structure ServiceState where
  active_connections : List Nat
  deriving Repr, DecidableEq

/-- `StreamingService.__init__`, as used for the module-level
`streaming_service` instance. -/
def StreamingService.init : ServiceState := { active_connections := [] }

/-- `stream_events` as a bound method: the service state is available at
every iteration, and the body never touches it. -/
def streamEventsAuxS (disc : Nat → Bool) (iso : Nat → String) (ts : Nat → Nat) :
    Nat → Nat → ServiceState → List SSEEvent × ServiceState
  | _, 0, st => ([], st)
  | counter, r + 1, st =>
    if disc counter then ([], st)
    else
      let c := counter + 1
      let ev : SSEEvent :=
        { event := "message", id := toString c,
          data := .msg { id := toString c, event := "message",
                         data := "Server message #" ++ toString c ++ " at " ++ iso counter,
                         timestamp := ts counter } }
      if 10 ≤ c then
        ([ev, { event := "complete", id := toString (c + 1),
                data := .complete "Stream completed" }], st)
      else
        let res := streamEventsAuxS disc iso ts c r st
        (ev :: res.1, res.2)

def stream_eventsS (st : ServiceState) (disc : Nat → Bool) (iso : Nat → String)
    (ts : Nat → Nat) : List SSEEvent × ServiceState :=
  streamEventsAuxS disc iso ts 0 10 st

/-- `simulate_llm_streaming` as a bound method. -/
def llmAuxS (disc : Nat → Bool) (total : Nat) :
    List String → Nat → Nat → ServiceState → List SSEEvent × ServiceState
  | [], _, cid, st => ([llmCompleteEvent cid], st)
  | w :: ws, i, cid, st =>
    if disc i then ([llmCompleteEvent cid], st)
    else
      let c := cid + 1
      let res := llmAuxS disc total ws (i + 1) c st
      ({ event := "llm_chunk", id := toString c,
         data := .chunk { content := w ++ " ", chunk_id := c,
                          is_final := i == total - 1,
                          metadata_progress := pyRoundRat ((i + 1) * 100) total } }
        :: res.1, res.2)

def simulate_llm_streamingS (st : ServiceState) (prompt : String)
    (disc : Nat → Bool) : List SSEEvent × ServiceState :=
  let words := pySplit (full_response prompt)
  llmAuxS disc words.length words 0 0 st

/-- `simulate_progress_task` as a bound method. -/
def progressAuxS (task_name : String) (t0 : Nat) (disc : Nat → Bool) :
    Nat → Nat → ServiceState → List SSEEvent × ServiceState
  | _, 0, st => ([], st)
  | step, r + 1, st =>
    if disc step then ([], st)
    else
      let res := progressAuxS task_name t0 disc (step + 1) r st
      (progressEvent task_name t0 step :: res.1, res.2)

def simulate_progress_taskS (st : ServiceState) (task_name : String) (t0 : Nat)
    (disc : Nat → Bool) : List SSEEvent × ServiceState :=
  progressAuxS task_name t0 disc 0 (total_steps + 1) st

/-- `generate_response` with the service state in scope (the inner generator
of the POST endpoint closes over no service state and never touches it). -/
def postAuxS (disc : Nat → Bool) (fault : Nat → Option String) (uid : String) :
    List String → Nat → ServiceState → List String × ServiceState
  | [], _, st => ([completionLine], st)
  | w :: ws, i, st =>
    match fault (2 * i) with
    | some e => ([errorLine e], st)
    | none =>
      if disc i then ([completionLine], st)
      else
        let rest : List String × ServiceState :=
          match fault (2 * i + 1) with
          | some e => ([errorLine e], st)
          | none => postAuxS disc fault uid ws (i + 1) st
        (chunkLine i w uid :: rest.1, rest.2)

def generate_responseS (st : ServiceState) (msg : ChatMessage)
    (disc : Nat → Bool) (fault : Nat → Option String) :
    List String × ServiceState :=
  let response_text := "Processing your message: \x27" ++ msg.message ++ "\x27"
  postAuxS disc fault (uidStr msg.user_id) (pySplit response_text) 0 st

theorem streamEventsAuxS_frame (disc : Nat → Bool) (iso : Nat → String)
    (ts : Nat → Nat) :
    ∀ (r counter : Nat) (st : ServiceState),
      streamEventsAuxS disc iso ts counter r st
        = (streamEventsAux disc iso ts counter r, st)
  | 0, counter, st => rfl
  | r + 1, counter, st => by
    show (if disc counter then ([], st) else _) = _
    rw [streamEventsAux_succ]
    by_cases hd : disc counter
    · simp [hd]
    · by_cases h10 : 10 ≤ counter + 1 <;>
        simp [hd, h10, streamEventsAuxS_frame disc iso ts r (counter + 1) st,
          counterMsgEvent]

theorem llmAuxS_frame (disc : Nat → Bool) (total : Nat) :
    ∀ (ws : List String) (i cid : Nat) (st : ServiceState),
      llmAuxS disc total ws i cid st = (llmAux disc total ws i cid, st)
  | [], i, cid, st => rfl
  | w :: ws, i, cid, st => by
    rw [llmAux_cons]
    show (if disc i then ([llmCompleteEvent cid], st) else _) = _
    by_cases hd : disc i
    · simp [hd]
    · simp [hd, llmAuxS_frame disc total ws (i + 1) (cid + 1) st]

theorem progressAuxS_frame (task_name : String) (t0 : Nat) (disc : Nat → Bool) :
    ∀ (r step : Nat) (st : ServiceState),
      progressAuxS task_name t0 disc step r st
        = (progressAux task_name t0 disc step r, st)
  | 0, step, st => rfl
  | r + 1, step, st => by
    rw [progressAux_succ]
    show (if disc step then ([], st) else _) = _
    by_cases hd : disc step
    · simp [hd]
    · simp [hd, progressAuxS_frame task_name t0 disc r (step + 1) st]

theorem postAuxS_frame (disc : Nat → Bool) (fault : Nat → Option String)
    (uid : String) :
    ∀ (ws : List String) (i : Nat) (st : ServiceState),
      postAuxS disc fault uid ws i st = (postAux disc fault uid ws i, st)
  | [], i, st => rfl
  | w :: ws, i, st => by
    rw [postAux_cons]
    show (match fault (2 * i) with
          | some e => ([errorLine e], st)
          | none => _) = _
    cases hf : fault (2 * i) with
    | some e => rfl
    | none =>
      by_cases hd : disc i
      · simp [hd]
      · simp only [hd, Bool.false_eq_true, if_false]
        cases hf2 : fault (2 * i + 1) with
        | some e => simp
        | none => simp [postAuxS_frame disc fault uid ws (i + 1) st]

/-! ## Wall-clock erasure

Only three payload fields are derived from wall-clock reads: the counter
message's `data` string (interpolating `datetime.now().isoformat()`) and
`timestamp` (`datetime.now()`), and the progress payload's `task_id`
(`int(time.time())`).  Erasing exactly those fields lets runs made at
different times be compared. -/

/-- Blank the wall-clock-derived fields of a counter "message" payload. -/
def scrubMsgTime : Payload → Payload
  | .msg m => .msg { m with data := "", timestamp := 0 }
  | p => p

/-- An SSE event with the counter stream's wall-clock fields blanked. -/
def eraseCounterTime (e : SSEEvent) : SSEEvent :=
  { e with data := scrubMsgTime e.data }

/-- Blank the wall-clock-derived field of a "progress" payload. -/
def scrubProgTime : Payload → Payload
  | .progress p => .progress { p with task_id := "" }
  | p => p

/-- An SSE event with the progress stream's wall-clock field blanked. -/
def eraseProgressTime (e : SSEEvent) : SSEEvent :=
  { e with data := scrubProgTime e.data }

theorem streamEventsAux_erase (disc : Nat → Bool) (iso1 iso2 : Nat → String)
    (ts1 ts2 : Nat → Nat) :
    ∀ (r counter : Nat),
      (streamEventsAux disc iso1 ts1 counter r).map eraseCounterTime
        = (streamEventsAux disc iso2 ts2 counter r).map eraseCounterTime
  | 0, _ => rfl
  | r + 1, counter => by
    rw [streamEventsAux_succ, streamEventsAux_succ]
    by_cases hd : disc counter
    · simp [hd]
    · by_cases h10 : 10 ≤ counter + 1 <;>
        simp [hd, h10, streamEventsAux_erase disc iso1 iso2 ts1 ts2 r (counter + 1),
          eraseCounterTime, scrubMsgTime, counterMsgEvent]

theorem progressAux_erase (task_name : String) (t0 t0' : Nat) (disc : Nat → Bool) :
    ∀ (r step : Nat),
      (progressAux task_name t0 disc step r).map eraseProgressTime
        = (progressAux task_name t0' disc step r).map eraseProgressTime
  | 0, _ => rfl
  | r + 1, step => by
    rw [progressAux_succ, progressAux_succ]
    by_cases hd : disc step
    · simp [hd]
    · simp [hd, progressAux_erase task_name t0 t0' disc r (step + 1),
        eraseProgressTime, scrubProgTime, progressEvent]

/-! ## Run-level helpers -/

theorem simulate_llm_streaming_def (p : String) (disc : Nat → Bool) :
    simulate_llm_streaming p disc
      = llmAux disc (pySplit (full_response p)).length (pySplit (full_response p)) 0 0 :=
  rfl

/-- Characterization of a disconnect-free generation run. -/
theorem llm_run_no_disc (p : String) :
    simulate_llm_streaming p (fun _ => false)
      = llmChunksFrom (pySplit (full_response p)).length (pySplit (full_response p)) 0
        ++ [llmCompleteEvent (pySplit (full_response p)).length] := by
  rw [simulate_llm_streaming_def]
  have := llmAux_all_false (fun _ => false) (pySplit (full_response p)).length
    (pySplit (full_response p)) 0 (fun j _ _ => rfl)
  simpa using this

/-- In a disconnect-free run, the number of "llm_chunk" events is the word
count of the canned response. -/
theorem llm_chunk_count (p : String) :
    ((simulate_llm_streaming p (fun _ => false)).filter
        fun e => e.event == "llm_chunk").length
      = (pySplit (full_response p)).length := by
  rw [llm_run_no_disc, List.filter_append, llmChunksFrom_filter]
  simp [llmCompleteEvent, llmChunksFrom_length]

/-! ## Claim theorems -/

/-- C2: for a disconnect-free run of the text-generation stream, the number
of "llm_chunk" events equals the word count `N` of the built response text,
the emitted `chunk_id` values are exactly `1..N` with no gaps, `is_final` is
true on the last chunk and false on all prior chunks, and exactly one
"llm_complete" event follows the last chunk. -/
theorem c2_generation_run (p : String) :
    ((simulate_llm_streaming p (fun _ => false)).take
        (pySplit (full_response p)).length).length
      = (pySplit (full_response p)).length ∧
    simulate_llm_streaming p (fun _ => false)
      = (simulate_llm_streaming p (fun _ => false)).take
          (pySplit (full_response p)).length
        ++ [llmCompleteEvent (pySplit (full_response p)).length] ∧
    ((simulate_llm_streaming p (fun _ => false)).take
        (pySplit (full_response p)).length).map SSEEvent.event
      = List.replicate (pySplit (full_response p)).length "llm_chunk" ∧
    ((simulate_llm_streaming p (fun _ => false)).take
        (pySplit (full_response p)).length).map chunkIdOf
      = List.range' 1 (pySplit (full_response p)).length ∧
    ((simulate_llm_streaming p (fun _ => false)).take
        (pySplit (full_response p)).length).map isFinalOf
      = List.replicate ((pySplit (full_response p)).length - 1) false ++ [true] ∧
    ((simulate_llm_streaming p (fun _ => false)).filter
        fun e => e.event == "llm_chunk")
      = (simulate_llm_streaming p (fun _ => false)).take
          (pySplit (full_response p)).length := by
  have hN1 : 1 ≤ (pySplit (full_response p)).length := by
    have := full_response_wordCount p
    omega
  have hrun := llm_run_no_disc p
  have hlen := llmChunksFrom_length (pySplit (full_response p)).length
    (pySplit (full_response p)) 0
  have htake : (simulate_llm_streaming p (fun _ => false)).take
      (pySplit (full_response p)).length
      = llmChunksFrom (pySplit (full_response p)).length (pySplit (full_response p)) 0 := by
    rw [hrun]
    exact List.take_left' hlen
  refine ⟨?_, ?_, ?_, ?_, ?_, ?_⟩
  · rw [htake, hlen]
  · rw [htake, hrun]
  · rw [htake, llmChunksFrom_map_event]
  · rw [htake]
    simpa using llmChunksFrom_map_chunkId (pySplit (full_response p)).length
      (pySplit (full_response p)) 0
  · rw [htake, llmChunksFrom_map_isFinal]
    exact range'_map_beq_last _ hN1
  · rw [htake, hrun, List.filter_append, llmChunksFrom_filter]
    simp [llmCompleteEvent]

/-- C5: a disconnect-free run of the progress stream emits exactly 21
"progress" events, one per step `0..20`, with ids `"0".."20"`; each event's
`progress` equals `floor(step * 100 / 20)`, the progress values are
monotonically non-decreasing, and `status` is `"in_progress"` for steps
`0..19` and `"completed"` only on the final event. -/
theorem c5_progress_run (task_name : String) (t0 : Nat) :
    (simulate_progress_task task_name t0 (fun _ => false)).length = 21 ∧
    (simulate_progress_task task_name t0 (fun _ => false)).map SSEEvent.event
      = List.replicate 21 "progress" ∧
    (simulate_progress_task task_name t0 (fun _ => false)).map SSEEvent.id
      = (List.range 21).map toString ∧
    (simulate_progress_task task_name t0 (fun _ => false)).map progOf
      = (List.range 21).map (fun s => s * 100 / 20) ∧
    ((simulate_progress_task task_name t0 (fun _ => false)).map progOf).Pairwise
      (· ≤ ·) ∧
    (simulate_progress_task task_name t0 (fun _ => false)).map statusOf
      = List.replicate 20 "in_progress" ++ ["completed"] := by
  have hrun : simulate_progress_task task_name t0 (fun _ => false)
      = (List.range 21).map (progressEvent task_name t0) := by
    have := progressAux_all_false task_name t0 (fun _ => false) 21 0 rfl
      (fun j _ _ => rfl)
    rw [List.range_eq_range']
    exact this
  have h4 : (simulate_progress_task task_name t0 (fun _ => false)).map progOf
      = (List.range 21).map (fun s => s * 100 / 20) := by
    rw [hrun, List.map_map]
    apply List.map_congr_left
    intro a _
    rfl
  have h6 : (simulate_progress_task task_name t0 (fun _ => false)).map statusOf
      = (List.range 21).map (fun s => if s < 20 then "in_progress" else "completed") := by
    rw [hrun, List.map_map]
    apply List.map_congr_left
    intro a _
    rfl
  refine ⟨?_, ?_, ?_, h4, ?_, ?_⟩
  · rw [hrun]; simp
  · rw [hrun]; rfl
  · rw [hrun]; rfl
  · rw [h4]; decide
  · rw [h6]; decide

/-- C4: a disconnect-free run of the counter stream emits exactly 10
"message" events with strictly increasing numeric ids `"1".."10"` followed by
exactly one "complete" event; if the first disconnect is detected at poll
`k < 10`, the run is exactly the first `k` messages — zero events after the
disconnect point, including no "complete". -/
theorem c4_counter_run :
    (∀ (iso : Nat → String) (ts : Nat → Nat),
      stream_events (fun _ => false) iso ts
        = (List.range 10).map (counterMsgEvent iso ts) ++ [counterCompleteEvent] ∧
      ((List.range 10).map (counterMsgEvent iso ts)).map SSEEvent.event
        = List.replicate 10 "message" ∧
      ((List.range 10).map (counterMsgEvent iso ts)).map SSEEvent.id
        = (List.range' 1 10).map toString) ∧
    (∀ (iso : Nat → String) (ts : Nat → Nat) (disc : Nat → Bool) (k : Nat),
      k < 10 → disc k = true → (∀ j, j < k → disc j = false) →
      stream_events disc iso ts = (List.range k).map (counterMsgEvent iso ts)) := by
  constructor
  · intro iso ts
    refine ⟨?_, by rfl, by rfl⟩
    have := streamEventsAux_all_false (fun _ => false) iso ts 9 0 rfl
      (fun j _ _ => rfl)
    rw [List.range_eq_range']
    exact this
  · intro iso ts disc k hk10 hk h0
    have := streamEventsAux_first_true disc iso ts k hk h0 10 0 rfl
      (by omega) hk10
    rw [List.range_eq_range']
    simpa using this

/-- C4 witness: with a disconnect first detected at poll 3, the counter
stream emits exactly messages 1..3 and no "complete". -/
theorem c4_counter_run_witness :
    stream_events (fun j => decide (3 ≤ j)) (fun _ => "") (fun _ => 0)
      = (List.range 3).map (counterMsgEvent (fun _ => "") (fun _ => 0)) :=
  c4_counter_run.2 (fun _ => "") (fun _ => 0) (fun j => decide (3 ≤ j)) 3
    (by omega) (by decide) (fun j hj => decide_eq_false (by omega))

/-- C1 counterexample: with the client disconnected before the very first
poll (`disc` constantly true), the text-generation stream still emits its
terminal "llm_complete" marker — an event emitted after the disconnect has
been detected, contradicting the claim that a detected disconnect suppresses
every further event including the pending terminal marker. -/
theorem c1_disconnect_counterexample :
    simulate_llm_streaming "hi" (fun _ => true) = [llmCompleteEvent 0] ∧
    (llmCompleteEvent 0).event = "llm_complete" := by
  constructor
  · rw [simulate_llm_streaming_def]
    cases hw : pySplit (full_response "hi") with
    | nil => exact absurd hw (by decide)
    | cons w ws => rw [llmAux_cons]; rfl
  · rfl

/-- C1 amended: every stream polls for disconnect before each data event,
and after the first poll that reports a disconnect no further data events are
emitted; the counter and progress streams then emit nothing at all (the
counter's "complete" is suppressed), but the text-generation stream still
emits "llm_complete" and the POST stream still emits its completion payload,
because those terminal yields sit outside the loops that the disconnect
`break`s out of. -/
theorem c1_amended_disconnect :
    (∀ (iso : Nat → String) (ts : Nat → Nat) (disc : Nat → Bool) (k : Nat),
      k < 10 → disc k = true → (∀ j, j < k → disc j = false) →
      stream_events disc iso ts = (List.range k).map (counterMsgEvent iso ts)) ∧
    (∀ (task_name : String) (t0 : Nat) (disc : Nat → Bool) (k : Nat),
      k ≤ 20 → disc k = true → (∀ j, j < k → disc j = false) →
      simulate_progress_task task_name t0 disc
        = (List.range k).map (progressEvent task_name t0)) ∧
    (∀ (p : String) (disc : Nat → Bool) (k : Nat),
      k < (pySplit (full_response p)).length → disc k = true →
      (∀ j, j < k → disc j = false) →
      simulate_llm_streaming p disc
        = llmChunksFrom (pySplit (full_response p)).length
            ((pySplit (full_response p)).take k) 0 ++ [llmCompleteEvent k]) ∧
    (∀ (msg : ChatMessage) (disc : Nat → Bool) (k : Nat),
      k < (pySplit ("Processing your message: \x27" ++ msg.message ++ "\x27")).length →
      disc k = true → (∀ j, j < k → disc j = false) →
      generate_response msg disc (fun _ => none)
        = postChunksFrom (uidStr msg.user_id)
            ((pySplit ("Processing your message: \x27" ++ msg.message ++ "\x27")).take k) 0
          ++ [completionLine]) := by
  refine ⟨?_, ?_, ?_, ?_⟩
  · intro iso ts disc k hk10 hk h0
    have := streamEventsAux_first_true disc iso ts k hk h0 10 0 rfl
      (by omega) hk10
    rw [List.range_eq_range']
    simpa using this
  · intro task_name t0 disc k hk20 hk h0
    have := progressAux_first_true task_name t0 disc k hk h0 21 0 rfl
      (by omega) hk20
    rw [List.range_eq_range']
    simpa using this
  · intro p disc k hkN hk h0
    rw [simulate_llm_streaming_def]
    have := llmAux_first_true disc (pySplit (full_response p)).length k hk h0
      (pySplit (full_response p)) 0 (by omega) (by omega)
    simpa using this
  · intro msg disc k hkN hk h0
    have := postAux_first_true disc (fun _ => none) (uidStr msg.user_id) k
      (fun _ => rfl) hk h0
      (pySplit ("Processing your message: \x27" ++ msg.message ++ "\x27")) 0
      (by omega) (by omega)
    simpa using this

/-- C1 amended witness: a disconnect first detected at poll 2 of the
progress stream yields exactly the events of steps 0 and 1 and nothing
after. -/
theorem c1_amended_disconnect_witness :
    simulate_progress_task "t" 0 (fun j => decide (2 ≤ j))
      = (List.range 2).map (progressEvent "t" 0) :=
  c1_amended_disconnect.2.1 "t" 0 (fun j => decide (2 ≤ j)) 2
    (by omega) (by decide) (fun j hj => decide_eq_false (by omega))

/-- C3 counterexample: for request message "hello world" the POST generator
chunks the whole acknowledgement string
"Processing your message: 'hello world'", so the run has five chunk payloads
with indices 0..4 — not two with indices 0 and 1 — before the completion
payload; likewise an empty message yields four chunk payloads, not zero. -/
theorem c3_post_counterexample :
    generate_response { message := "hello world" } (fun _ => false) (fun _ => none)
      = [chunkLine 0 "Processing" "anonymous", chunkLine 1 "your" "anonymous",
         chunkLine 2 "message:" "anonymous", chunkLine 3 "\x27hello" "anonymous",
         chunkLine 4 "world\x27" "anonymous", completionLine] ∧
    generate_response { message := "" } (fun _ => false) (fun _ => none)
      = [chunkLine 0 "Processing" "anonymous", chunkLine 1 "your" "anonymous",
         chunkLine 2 "message:" "anonymous", chunkLine 3 "\x27\x27" "anonymous",
         completionLine] := by
  constructor <;> decide

/-- C3 amended: for message "hello world" the chunk payload indices are
exactly 0..4 in order (one per word of the acknowledgement string
"Processing your message: 'hello world'"), each chunk echoes the request's
`user_id` (defaulting to "anonymous" when the field is omitted), and the
completion payload follows; for an empty message the indices are 0..3 (words
of "Processing your message: ''") followed by the completion payload. -/
theorem c3_post_amended (uid : String) :
    generate_response { message := "hello world", user_id := some uid }
        (fun _ => false) (fun _ => none)
      = [chunkLine 0 "Processing" uid, chunkLine 1 "your" uid,
         chunkLine 2 "message:" uid, chunkLine 3 "\x27hello" uid,
         chunkLine 4 "world\x27" uid, completionLine] ∧
    generate_response { message := "", user_id := some uid }
        (fun _ => false) (fun _ => none)
      = [chunkLine 0 "Processing" uid, chunkLine 1 "your" uid,
         chunkLine 2 "message:" uid, chunkLine 3 "\x27\x27" uid,
         completionLine] ∧
    generate_response { message := "hello world" } (fun _ => false) (fun _ => none)
      = [chunkLine 0 "Processing" "anonymous", chunkLine 1 "your" "anonymous",
         chunkLine 2 "message:" "anonymous", chunkLine 3 "\x27hello" "anonymous",
         chunkLine 4 "world\x27" "anonymous", completionLine] := by
  refine ⟨?_, ?_, by decide⟩
  · have hw : pySplit ("Processing your message: \x27" ++ "hello world" ++ "\x27")
        = ["Processing", "your", "message:", "\x27hello", "world\x27"] := by decide
    have h := postAux_all_false (fun _ => false) (fun _ => none) uid
      (fun _ => rfl) (fun _ => rfl)
      (pySplit ("Processing your message: \x27" ++ "hello world" ++ "\x27")) 0
    rw [hw] at h
    calc generate_response { message := "hello world", user_id := some uid }
          (fun _ => false) (fun _ => none)
        = postAux (fun _ => false) (fun _ => none) uid
            ["Processing", "your", "message:", "\x27hello", "world\x27"] 0 := by
          show postAux _ _ _ (pySplit _) 0 = _
          rw [hw]
          rfl
      _ = _ := by rw [h]; simp [postChunksFrom]
  · have hw : pySplit ("Processing your message: \x27" ++ "" ++ "\x27")
        = ["Processing", "your", "message:", "\x27\x27"] := by decide
    have h := postAux_all_false (fun _ => false) (fun _ => none) uid
      (fun _ => rfl) (fun _ => rfl)
      (pySplit ("Processing your message: \x27" ++ "" ++ "\x27")) 0
    rw [hw] at h
    calc generate_response { message := "", user_id := some uid }
          (fun _ => false) (fun _ => none)
        = postAux (fun _ => false) (fun _ => none) uid
            ["Processing", "your", "message:", "\x27\x27"] 0 := by
          show postAux _ _ _ (pySplit _) 0 = _
          rw [hw]
          rfl
      _ = _ := by rw [h]; simp [postChunksFrom]

/-- C6 counterexample: the prompt does change the number of "llm_chunk"
events — prompts "a" and "a b" give full runs of 78 and 79 chunks
respectively, because `full_response.split()` also splits the interpolated
prompt into words. -/
theorem c6_prompt_counterexample :
    ((simulate_llm_streaming "a" (fun _ => false)).filter
        fun e => e.event == "llm_chunk").length = 78 ∧
    ((simulate_llm_streaming "a b" (fun _ => false)).filter
        fun e => e.event == "llm_chunk").length = 79 := by
  constructor <;> decide

/-- C6 amended: the prompt is interpolated into the first line only, and the
chunk count is 77 fixed words plus the word count of the quoted prompt
`"p".`; hence any two prompts whose quoted forms have the same number of
whitespace-delimited words produce the same number of "llm_chunk" events in
complete runs. -/
theorem c6_prompt_amended (p1 p2 : String)
    (h : (pySplit (quotedPrompt p1)).length = (pySplit (quotedPrompt p2)).length) :
    ((simulate_llm_streaming p1 (fun _ => false)).filter
        fun e => e.event == "llm_chunk").length
      = ((simulate_llm_streaming p2 (fun _ => false)).filter
        fun e => e.event == "llm_chunk").length := by
  rw [llm_chunk_count, llm_chunk_count, full_response_wordCount,
    full_response_wordCount, h]

/-- C6 amended witness: "cat" and "dog" have quoted forms with equal word
counts, and indeed their complete runs have equally many chunks. -/
theorem c6_prompt_amended_witness :
    (pySplit (quotedPrompt "cat")).length = (pySplit (quotedPrompt "dog")).length ∧
    ((simulate_llm_streaming "cat" (fun _ => false)).filter
        fun e => e.event == "llm_chunk").length
      = ((simulate_llm_streaming "dog" (fun _ => false)).filter
        fun e => e.event == "llm_chunk").length :=
  ⟨by decide, c6_prompt_amended "cat" "dog" (by decide)⟩

/-- C7: any exception raised at an await point inside the POST generator is
caught by the enclosing `try/except` and converted into exactly one error
payload `data: {'error': 'Processing failed: <reason>'}`, which is the last
line of the stream; every earlier line is a chunk payload, so no chunk or
completion payload follows the error payload and the exception does not
propagate out of the generator. -/
theorem c7_post_error (msg : ChatMessage) (disc : Nat → Bool)
    (fault : Nat → Option String) (j : Nat) (e : String)
    (hf : fault j = some e) (h0 : ∀ j', j' < j → fault j' = none)
    (hd : ∀ i, 2 * i < j → disc i = false)
    (hj : j < 2 * (pySplit
      ("Processing your message: \x27" ++ msg.message ++ "\x27")).length) :
    generate_response msg disc fault
      = postChunksFrom (uidStr msg.user_id)
          ((pySplit ("Processing your message: \x27" ++ msg.message ++ "\x27")).take
            ((j + 1) / 2)) 0
        ++ [errorLine e] ∧
    ∀ s ∈ postChunksFrom (uidStr msg.user_id)
        ((pySplit ("Processing your message: \x27" ++ msg.message ++ "\x27")).take
          ((j + 1) / 2)) 0,
      ∃ a b, s = chunkLine a b (uidStr msg.user_id) := by
  constructor
  · have := postAux_fault disc fault (uidStr msg.user_id) j e hf h0 hd
      (pySplit ("Processing your message: \x27" ++ msg.message ++ "\x27")) 0
      (by omega) (by omega)
    simpa using this
  · exact postChunksFrom_mem _ _ _

/-- C7 witness: an exception "boom" raised at the sleep after the first
chunk of message "hi" produces that one chunk followed by exactly the error
line, and nothing else. -/
theorem c7_post_error_witness :
    generate_response { message := "hi" } (fun _ => false)
        (fun n => if n = 1 then some "boom" else none)
      = [chunkLine 0 "Processing" "anonymous", errorLine "boom"] := by
  have h := (c7_post_error { message := "hi" } (fun _ => false)
    (fun n => if n = 1 then some "boom" else none) 1 "boom" rfl
    (fun j' hj' => by
      have hj0 : j' = 0 := by omega
      subst hj0
      rfl)
    (fun i hi => rfl)
    (by decide)).1
  rw [h]
  decide

/-- C8: two invocations of a GET stream endpoint with identical parameters
produce streams of equal length whose events agree on every field not
derived from wall-clock reads: the counter stream after erasing the
timestamped fields, the generation stream outright (it reads no clock), and
the progress stream after erasing the time-derived task id. -/
theorem c8_idempotent_runs :
    (∀ (disc : Nat → Bool) (iso1 iso2 : Nat → String) (ts1 ts2 : Nat → Nat),
      (stream_events disc iso1 ts1).map eraseCounterTime
        = (stream_events disc iso2 ts2).map eraseCounterTime ∧
      (stream_events disc iso1 ts1).length = (stream_events disc iso2 ts2).length) ∧
    (∀ (p : String) (disc : Nat → Bool),
      simulate_llm_streaming p disc = simulate_llm_streaming p disc) ∧
    (∀ (task_name : String) (t0 t0' : Nat) (disc : Nat → Bool),
      (simulate_progress_task task_name t0 disc).map eraseProgressTime
        = (simulate_progress_task task_name t0' disc).map eraseProgressTime ∧
      (simulate_progress_task task_name t0 disc).length
        = (simulate_progress_task task_name t0' disc).length) := by
  refine ⟨?_, fun p disc => rfl, ?_⟩
  · intro disc iso1 iso2 ts1 ts2
    have h : (stream_events disc iso1 ts1).map eraseCounterTime
        = (stream_events disc iso2 ts2).map eraseCounterTime :=
      streamEventsAux_erase disc iso1 iso2 ts1 ts2 10 0
    refine ⟨h, ?_⟩
    have := congrArg List.length h
    simpa using this
  · intro task_name t0 t0' disc
    have h : (simulate_progress_task task_name t0 disc).map eraseProgressTime
        = (simulate_progress_task task_name t0' disc).map eraseProgressTime :=
      progressAux_erase task_name t0 t0' disc 21 0
    refine ⟨h, ?_⟩
    have := congrArg List.length h
    simpa using this

/-- C9: no generator reads or mutates the service state: running any of the
four generators with the `StreamingService` state threaded through every
iteration returns the state unchanged (`active_connections` untouched), and
the emitted events are exactly those of the state-free embedding, hence
independent of the state — each invocation owns its loop counters and local
buffers exclusively. -/
theorem c9_no_shared_state (st : ServiceState) :
    (∀ (disc : Nat → Bool) (iso : Nat → String) (ts : Nat → Nat),
      stream_eventsS st disc iso ts = (stream_events disc iso ts, st)) ∧
    (∀ (p : String) (disc : Nat → Bool),
      simulate_llm_streamingS st p disc = (simulate_llm_streaming p disc, st)) ∧
    (∀ (task_name : String) (t0 : Nat) (disc : Nat → Bool),
      simulate_progress_taskS st task_name t0 disc
        = (simulate_progress_task task_name t0 disc, st)) ∧
    (∀ (msg : ChatMessage) (disc : Nat → Bool) (fault : Nat → Option String),
      generate_responseS st msg disc fault
        = (generate_response msg disc fault, st)) :=
  ⟨fun disc iso ts => streamEventsAuxS_frame disc iso ts 10 0 st,
   fun p disc => llmAuxS_frame disc (pySplit (full_response p)).length
     (pySplit (full_response p)) 0 0 st,
   fun task_name t0 disc => progressAuxS_frame task_name t0 disc 21 0 st,
   fun msg disc fault => postAuxS_frame disc fault (uidStr msg.user_id)
     (pySplit ("Processing your message: \x27" ++ msg.message ++ "\x27")) 0 st⟩

/-- Filtering a block of counter messages for event name "message" keeps all
of them. -/
theorem counterMsgs_filter (iso : Nat → String) (ts : Nat → Nat) (l : List Nat) :
    ((l.map (counterMsgEvent iso ts)).filter fun x => x.event == "message")
      = l.map (counterMsgEvent iso ts) := by
  apply List.filter_eq_self.2
  intro e he
  obtain ⟨j, hj, rfl⟩ := List.mem_map.1 he
  simp [counterMsgEvent]

/-- C10: in any counter run that contains a "complete" event, that event
carries id "11" and the run has exactly 10 "message" events before it; and
in every generation run the last event is "llm_complete" with id
`str(k + 1)` where `k` is the number of "llm_chunk" events of that run. -/
theorem c10_terminal_ids :
    (∀ (disc : Nat → Bool) (iso : Nat → String) (ts : Nat → Nat) (e : SSEEvent),
      e ∈ stream_events disc iso ts → e.event = "complete" →
      e.id = "11" ∧
      ((stream_events disc iso ts).filter fun x => x.event == "message").length = 10) ∧
    (∀ (p : String) (disc : Nat → Bool),
      (simulate_llm_streaming p disc).getLast?
        = some (llmCompleteEvent
            (((simulate_llm_streaming p disc).filter
                fun x => x.event == "llm_chunk").length))) := by
  constructor
  · intro disc iso ts e he hev
    by_cases hall : ∀ j, j < 10 → disc j = false
    · have hrun : stream_events disc iso ts
          = (List.range' 0 10).map (counterMsgEvent iso ts) ++ [counterCompleteEvent] :=
        streamEventsAux_all_false disc iso ts 9 0 rfl (fun j _ h2 => hall j h2)
      constructor
      · rw [hrun] at he
        rcases List.mem_append.1 he with h | h
        · obtain ⟨j, hj, rfl⟩ := List.mem_map.1 h
          exact absurd hev (by simp [counterMsgEvent])
        · rw [List.mem_singleton.1 h]
          rfl
      · rw [hrun, List.filter_append, counterMsgs_filter]
        simp [counterCompleteEvent]
    · push_neg at hall
      obtain ⟨j0, hj0, hdj0⟩ := hall
      have hdj0' : disc j0 = true := by
        cases hdisc : disc j0
        · exact absurd hdisc hdj0
        · rfl
      have hex : ∃ j, disc j = true := ⟨j0, hdj0'⟩
      have hk : disc (Nat.find hex) = true := Nat.find_spec hex
      have hkmin : ∀ m, m < Nat.find hex → disc m = false := by
        intro m hm
        have hnot := Nat.find_min hex hm
        cases hdisc : disc m
        · rfl
        · exact absurd hdisc hnot
      have hk10 : Nat.find hex < 10 :=
        lt_of_le_of_lt (Nat.find_min' hex hdj0') hj0
      have hrun : stream_events disc iso ts
          = (List.range' 0 (Nat.find hex)).map (counterMsgEvent iso ts) := by
        have := streamEventsAux_first_true disc iso ts (Nat.find hex) hk hkmin
          10 0 rfl (by omega) hk10
        simpa using this
      rw [hrun] at he
      obtain ⟨j, hj, rfl⟩ := List.mem_map.1 he
      exact absurd hev (by simp [counterMsgEvent])
  · intro p disc
    have := llmAux_getLast disc (pySplit (full_response p)).length
      (pySplit (full_response p)) 0 0
    simpa [simulate_llm_streaming_def] using this

/-- C10 witness: in the disconnect-free counter run the "complete" event is
present, carries id "11", and is preceded by exactly 10 messages. -/
theorem c10_terminal_ids_witness :
    counterCompleteEvent.id = "11" ∧
    ((stream_events (fun _ => false) (fun _ => "") (fun _ => 0)).filter
        fun x => x.event == "message").length = 10 :=
  c10_terminal_ids.1 (fun _ => false) (fun _ => "") (fun _ => 0)
    counterCompleteEvent (by decide) rfl

end SSE
